import Mathlib

set_option linter.unusedVariables false

/-!
Verification of the codex-shimmer waybar CFFI module
(src/cffi/codex_shimmer/main.c) against its natural-language specification.

The C module is a single-threaded GTK widget: a JSON cache file drives the
displayed text / tooltip / style classes, and a timer-driven draw callback
paints the text with a sweeping Gaussian shimmer highlight.

Shallow embedding choices:
* C doubles are modelled as `ℚ` (the arithmetic in the module is exact
  field arithmetic except for `exp`, which is libm and is passed in as an
  uninterpreted function `gexp`).
* json-glib is an external library; a parsed document is modelled by the
  inductive `Json`, and a JSON object by its association list.  The result
  of reading and parsing the cache file is an input to `load_cache`:
  `none` = unreadable file, `some none` = malformed JSON,
  `some (some root)` = a parsed document.
* GTK widget state touched by the module (the tooltip on the drawing area
  and the style classes of the container's style context) is carried in
  `ShimmerState`; cairo/pango painting calls are represented by the data
  they would paint (`RenderResult`), and pango text measurement is an
  input (`layout_width_px`, `layout_height_px`).
* glib's `g_get_monotonic_time` is the explicit `now` argument.
-/

/-- A parsed JSON document (the shape json-glib hands back). -/
inductive Json where
  | null : Json
  | bool (b : Bool) : Json
  | num (q : ℚ) : Json
  | str (s : String) : Json
  | arr (xs : List Json) : Json
  | obj (kvs : List (String × Json)) : Json

/-- `json_node_is_string` / `json_node_get_string`: the string held by a
string value node. -/
def Json.getString : Json → Option String
  | .str s => some s
  | _ => none

/-- `JSON_NODE_HOLDS_OBJECT` (main.c line 496). -/
def Json.isObject : Json → Bool
  | .obj _ => true
  | _ => false

/-- glib `MAX(a, b)`: `(a) > (b) ? (a) : (b)`. -/
def cMax (a b : ℚ) : ℚ := if b < a then a else b

/-- glib `CLAMP(x, low, high)`: `(x) > (high) ? (high) : ((x) < (low) ? (low) : (x))`. -/
def cClamp (x lo hi : ℚ) : ℚ := if hi < x then hi else if x < lo then lo else x

/-- glib `CLAMP` on unsigned integers (for `tick_ms`). -/
def cClampN (x lo hi : ℕ) : ℕ := if hi < x then hi else if x < lo then lo else x

/-- glib `CLAMP` on `gint64` (inside `json_node_get_uint_or`). -/
def cClampI (x lo hi : ℤ) : ℤ := if hi < x then hi else if x < lo then lo else x

/-- C truncation toward zero, as in a `(gint64)` cast of a double and in
`fmod`. -/
def intTrunc (q : ℚ) : ℤ := if q < 0 then -(Int.floor (-q)) else Int.floor q

/-- libm `fmod(x, y) = x - y * trunc(x / y)` (finite arguments, `y ≠ 0`;
the module always calls it with `y = period_ms + pause_ms ≥ 200`). -/
def cFmod (x y : ℚ) : ℚ := x - y * ((intTrunc (x / y) : ℤ) : ℚ)

/-- `json_node_get_double_or` (main.c lines 93-98): the number held by a
numeric value node, else the fallback.  A `none` argument stands for the
NULL node `parse_json_value` returns on a parse failure. -/
def json_node_get_double_or (node : Option Json) (fallback : ℚ) : ℚ :=
  match node with
  | some (Json.num q) => q
  | _ => fallback

/-- `json_node_get_uint_or` (main.c lines 100-105):
`(guint)CLAMP(json_node_get_int(node), 0, G_MAXUINT)` for a numeric node,
else the fallback.  `json_node_get_int` truncates a double toward zero. -/
def json_node_get_uint_or (node : Option Json) (fallback : ℕ) : ℕ :=
  match node with
  | some (Json.num q) => (cClampI (intTrunc q) 0 4294967295).toNat
  | _ => fallback

/-- `g_build_filename(a, b, NULL)`: joins the two elements with a single
separator, collapsing leading separators of the second element; an empty
second element is skipped.  (The module only ever joins a home directory,
which carries no trailing separator, so that case is not modelled.) -/
def g_build_filename (a b : String) : String :=
  let b1 := String.mk (b.data.dropWhile (fun c => c = '/'))
  if b1.data = [] then a else a ++ "/" ++ b1

/-- `default_cache_path` (main.c lines 49-52). -/
def default_cache_path (home : String) : String :=
  g_build_filename (g_build_filename (g_build_filename home ".cache") "codex-shimmer") "latest.json"

/-- `expand_user_path` (main.c lines 72-81): a path whose first byte is `~`
becomes `g_build_filename(home, path + 1)` where `home` is the current
user's home directory; any other path is returned unchanged.  (The C NULL
path case is not representable here; callers pass a parsed JSON string.) -/
def expand_user_path (home path : String) : String :=
  match path.data with
  | [] => path
  | c :: rest => if c = '~' then g_build_filename home (String.mk rest) else path

/-- The configuration fields of `CodexShimmer` fixed at `wbcffi_init`
(main.c lines 17, 25-31). -/
structure Config where
  cache_path : String
  period_ms : ℚ
  width_chars : ℚ
  cycles : ℚ
  tick_ms : ℕ
  pause_ms : ℚ
  highlight_alpha : ℚ
  base_alpha : ℚ
deriving DecidableEq

/-- `config_lookup` (main.c lines 114-121): the first entry with the key.
Each entry's value is paired with the result of `parse_json_value` on it
(`none` = the value did not parse). -/
def config_lookup (entries : List (String × Option Json)) (key : String) : Option (Option Json) :=
  List.lookup key entries

/-- The configuration-parsing part of `wbcffi_init` (main.c lines 144-266):
defaults, per-key extraction, and the final clamps of lines 260-266. -/
def wbcffi_init_config (home : String) (entries : List (String × Option Json)) : Config :=
  let cache_path :=
    match config_lookup entries "cache_path" with
    | some (some (Json.str s)) => expand_user_path home s
    | _ => default_cache_path home
  let period_ms0 :=
    match config_lookup entries "period_ms" with
    | some node => json_node_get_double_or node 1600
    | none => (1600 : ℚ)
  let width_chars0 :=
    match config_lookup entries "width_chars" with
    | some node => json_node_get_double_or node 4
    | none =>
      match config_lookup entries "width" with
      | some node => json_node_get_double_or node 4
      | none => (4 : ℚ)
  let pause_ms0 :=
    match config_lookup entries "pause_ms" with
    | some node => json_node_get_double_or node 500
    | none => (500 : ℚ)
  let cycles0 :=
    match config_lookup entries "cycles" with
    | some node => json_node_get_double_or node 1
    | none => (1 : ℚ)
  let tick_ms0 :=
    match config_lookup entries "tick_ms" with
    | some node => json_node_get_uint_or node 33
    | none => (33 : ℕ)
  let highlight_alpha :=
    match config_lookup entries "highlight_alpha" with
    | some node => cClamp (json_node_get_double_or node 0.35) 0 1
    | none => (0.35 : ℚ)
  let base_alpha :=
    match config_lookup entries "base_alpha" with
    | some node => cClamp (json_node_get_double_or node 1) 0 1
    | none => (1 : ℚ)
  { cache_path := cache_path
    period_ms := cMax period_ms0 200
    width_chars := cClamp width_chars0 1 20
    cycles := cClamp cycles0 0.1 6
    tick_ms := cClampN tick_ms0 5 1000
    pause_ms := cMax pause_ms0 0
    highlight_alpha := highlight_alpha
    base_alpha := base_alpha }

/-- The mutable display / animation state of `CodexShimmer`
(main.c lines 18-20, 35) together with the GTK state the module drives:
the tooltip set on the drawing area and the style classes currently
applied to the container's style context. -/
structure ShimmerState where
  textPlain : Option String
  tooltipText : Option String
  widgetTooltip : Option String
  styleClasses : List String
  ctxClasses : List String
  startTimeUs : ℚ
deriving DecidableEq

/-- `gtk_style_context_add_class`: a class is applied at most once. -/
def addStyleClass (ctx : List String) (cl : String) : List String :=
  if cl ∈ ctx then ctx else ctx ++ [cl]

/-- `free_style_classes` (main.c lines 450-457): remove every stored class
from the style context (the stored list itself is then emptied by the
caller's pair). -/
def freeStyleClasses (ctx stored : List String) : List String :=
  stored.foldl (fun c cl => c.erase cl) ctx

/-- One iteration of the loop of `update_style_classes`
(main.c lines 465-472): a string element is added to the context and
appended to the stored list, any other element is skipped. -/
def addClassStep (acc : List String × List String) (node : Json) : List String × List String :=
  match Json.getString node with
  | some cl => (addStyleClass acc.1 cl, acc.2 ++ [cl])
  | none => acc

/-- `update_style_classes` (main.c lines 459-473) acting on
(context classes, stored classes): old classes are removed first, then the
string elements of the array (if any) are applied. -/
def update_style_classes (ctx stored : List String) (classes : Option (List Json)) :
    List String × List String :=
  let ctx1 := freeStyleClasses ctx stored
  match classes with
  | none => (ctx1, [])
  | some xs => xs.foldl addClassStep (ctx1, [])

/-- The placeholder text of main.c line 517. -/
def defaultText : String := "Waiting for Codex…"

/-- `load_cache` (main.c lines 475-543).  `readResult` is the combined
outcome of `g_file_get_contents` and `json_parser_load_from_data`:
`none` = unreadable, `some none` = malformed JSON, `some (some root)` = a
parsed document.  `nowUs` is `g_get_monotonic_time()` at line 538.
Returns the new state and the C function's boolean. -/
def load_cache (s : ShimmerState) (readResult : Option (Option Json)) (nowUs : ℚ) :
    ShimmerState × Bool :=
  match readResult with
  | none => (s, false)
  | some none => (s, false)
  | some (some root) =>
    match root with
    | Json.obj kvs =>
      let text : Option String := (List.lookup "text" kvs).bind Json.getString
      let tooltip : Option String := (List.lookup "tooltip" kvs).bind Json.getString
      let classes_node : Option Json := List.lookup "class" kvs
      let classes : Option (List Json) :=
        match classes_node with
        | some (Json.arr xs) => some xs
        | _ => none
      let classes : Option (List Json) :=
        match classes, classes_node with
        | none, some (Json.str cl) => some [Json.str cl]
        | c, _ => c
      let pair := update_style_classes s.ctxClasses s.styleClasses classes
      ({ textPlain := some (match text with | some t => t | none => defaultText)
         tooltipText := tooltip
         widgetTooltip := tooltip
         styleClasses := pair.2
         ctxClasses := pair.1
         startTimeUs := nowUs }, true)
    | _ => (s, false)

/-- The triangular envelope of main.c line 385:
`phase < 0.5 ? phase * 2.0 : (1.0 - phase) * 2.0`. -/
def envelopeQ (phase : ℚ) : ℚ := if phase < 0.5 then phase * 2 else (1 - phase) * 2

/-- The band-center formula of main.c lines 389-391:
`start_offset = -width_px; travel = layout_width_px + width_px * 2;
center_px = start_offset + phase * travel`. -/
def center_px (layout_width bandW phase : ℚ) : ℚ :=
  let start_offset := -bandW
  let travel := layout_width + bandW * 2
  start_offset + phase * travel

/-- The highlight pass's data: the band geometry and the 97 gradient stops
that `on_draw` would feed to cairo (offset and alpha of each stop; the RGB
channels are the fixed highlight color). -/
structure Highlight where
  width_px : ℚ
  center_pos : ℚ
  gradient_start : ℚ
  gradient_end : ℚ
  stops : List (ℚ × ℚ)
deriving DecidableEq

/-- What one call of `on_draw` paints. -/
structure RenderResult where
  handled : Bool
  base_painted : Bool
  highlight : Option Highlight
deriving DecidableEq

/-- `on_draw` (main.c lines 338-425).  `gexp` stands for libm `exp`;
`layout_width_px` / `layout_height_px` are the pango measurement of the
text, `alloc_height` the widget allocation, `elapsed_ms` the time since
`start_time_us` (line 372).  Vertical centering and the cairo clip /
operator setup are painting detail carried by the booleans. -/
def on_draw (gexp : ℚ → ℚ) (c : Config) (text_plain : Option String)
    (layout_width_px layout_height_px alloc_height : ℤ) (elapsed_ms : ℚ) : RenderResult :=
  match text_plain with
  | none => ⟨false, false, none⟩
  | some t =>
    if layout_width_px ≤ 0 then ⟨true, false, none⟩
    else
      let total_cycle := c.period_ms + c.pause_ms
      let cycle_pos := cFmod elapsed_ms total_cycle
      if c.period_ms ≤ cycle_pos ∨ c.highlight_alpha ≤ 0 then ⟨true, true, none⟩
      else
        let glyphs : ℤ := max 1 (t.length : ℤ)
        let avg_char_width : ℚ :=
          if 0 < glyphs then (layout_width_px : ℚ) / (glyphs : ℚ) else (layout_width_px : ℚ)
        let base_width := cMax (avg_char_width * c.width_chars) avg_char_width
        let phase := cycle_pos / c.period_ms
        let envelope := envelopeQ phase
        let width_px := cMax (avg_char_width * 0.6) (base_width * envelope)
        let width_px := cMax width_px (avg_char_width * 0.6)
        let center := center_px (layout_width_px : ℚ) width_px phase
        let gradient_start := center - width_px * 2
        let gradient_end := center + width_px * 2
        let gradient_end :=
          if gradient_end ≤ gradient_start then gradient_start + 1 else gradient_end
        let steps : ℕ := 96
        let stops := (List.range (steps + 1)).map (fun i =>
          let offset := (i : ℚ) / (steps : ℚ)
          let px := gradient_start + offset * (gradient_end - gradient_start)
          let delta := (px - center) / width_px
          let gaussian := gexp (-0.5 * delta * delta)
          (offset, cClamp (c.highlight_alpha * envelope * gaussian) 0 1))
        ⟨true, true, some ⟨width_px, center, gradient_start, gradient_end, stops⟩⟩

/-- The spec's characterization (§4.1) of the tag set extracted from the
`class` member: an array keeps its string elements in order, a bare string
is a one-element list, anything else is empty.  Stated separately from
`load_cache` so the two can be compared. -/
def classStrings : Option Json → List String
  | some (Json.arr xs) => xs.filterMap Json.getString
  | some (Json.str s) => [s]
  | _ => []

/-! ## Helper lemmas -/

theorem le_cMax (a b : ℚ) : b ≤ cMax a b := by
  unfold cMax
  split
  · linarith
  · exact le_refl b

theorem cClamp_bounds (x lo hi : ℚ) (h : lo ≤ hi) :
    lo ≤ cClamp x lo hi ∧ cClamp x lo hi ≤ hi := by
  unfold cClamp
  split_ifs with h1 h2 <;> constructor <;> linarith

theorem cClampN_bounds (x lo hi : ℕ) (h : lo ≤ hi) :
    lo ≤ cClampN x lo hi ∧ cClampN x lo hi ≤ hi := by
  unfold cClampN
  split_ifs with h1 h2 <;> omega

/-! ## Claim theorems -/

/-- C1: a load of the cache file that fails — unreadable file, invalid
JSON, or a JSON root that is not an object — leaves the stored display
state (text, tooltip, tag set, applied context classes) and the animation
epoch exactly as they were, and returns FALSE. -/
theorem load_cache_failure_frame (s : ShimmerState) (r : Option (Option Json)) (now : ℚ)
    (h : r = none ∨ r = some none ∨ ∃ j, r = some (some j) ∧ j.isObject = false) :
    load_cache s r now = (s, false) := by
  rcases h with h | h | ⟨j, hj, hobj⟩
  · subst h; rfl
  · subst h; rfl
  · subst hj
    cases j <;> simp_all [load_cache, Json.isObject]

/-- C1 witness: an unreadable file leaves a concrete populated state
untouched. -/
theorem load_cache_failure_frame_witness :
    load_cache ⟨some "old", some "tip", some "tip", ["busy"], ["busy"], 5⟩ none 0 =
      (⟨some "old", some "tip", some "tip", ["busy"], ["busy"], 5⟩, false) :=
  load_cache_failure_frame _ none 0 (Or.inl rfl)

/-- C5: a successful reload from a cache file holding only a text member
"Hello", from any prior state, sets the displayed text to "Hello", drops
the tooltip, empties the tag set, and resets the animation epoch to the
current time (so elapsed time restarts at 0). -/
theorem load_cache_hello (s : ShimmerState) (now : ℚ) :
    (load_cache s (some (some (Json.obj [("text", Json.str "Hello")]))) now).2 = true ∧
    (load_cache s (some (some (Json.obj [("text", Json.str "Hello")]))) now).1.textPlain =
      some "Hello" ∧
    (load_cache s (some (some (Json.obj [("text", Json.str "Hello")]))) now).1.tooltipText =
      none ∧
    (load_cache s (some (some (Json.obj [("text", Json.str "Hello")]))) now).1.widgetTooltip =
      none ∧
    (load_cache s (some (some (Json.obj [("text", Json.str "Hello")]))) now).1.styleClasses =
      [] ∧
    (load_cache s (some (some (Json.obj [("text", Json.str "Hello")]))) now).1.startTimeUs =
      now ∧
    now - (load_cache s (some (some (Json.obj [("text", Json.str "Hello")]))) now).1.startTimeUs =
      0 := by
  refine ⟨rfl, rfl, rfl, rfl, rfl, rfl, ?_⟩
  have h : (load_cache s (some (some (Json.obj [("text", Json.str "Hello")]))) now).1.startTimeUs
      = now := rfl
  rw [h, sub_self]

/-- C9: configuration clamping — a period_ms of 50 is stored as the
minimum 200, a width_chars of 50 as 20, a tick_ms of 1 as 5; and for every
configuration input, the constructed Config satisfies the documented
ranges: period_ms ≥ 200, width_chars ∈ [1,20], tick_ms ∈ [5,1000],
pause_ms ≥ 0, cycles ∈ [0.1,6], highlight_alpha and base_alpha ∈ [0,1]. -/
theorem wbcffi_init_config_clamps :
    (wbcffi_init_config "/home/u" [("period_ms", some (Json.num 50))]).period_ms = 200 ∧
    (wbcffi_init_config "/home/u" [("width_chars", some (Json.num 50))]).width_chars = 20 ∧
    (wbcffi_init_config "/home/u" [("tick_ms", some (Json.num 1))]).tick_ms = 5 ∧
    ∀ (home : String) (entries : List (String × Option Json)),
      200 ≤ (wbcffi_init_config home entries).period_ms ∧
      1 ≤ (wbcffi_init_config home entries).width_chars ∧
      (wbcffi_init_config home entries).width_chars ≤ 20 ∧
      5 ≤ (wbcffi_init_config home entries).tick_ms ∧
      (wbcffi_init_config home entries).tick_ms ≤ 1000 ∧
      0 ≤ (wbcffi_init_config home entries).pause_ms ∧
      0.1 ≤ (wbcffi_init_config home entries).cycles ∧
      (wbcffi_init_config home entries).cycles ≤ 6 ∧
      0 ≤ (wbcffi_init_config home entries).highlight_alpha ∧
      (wbcffi_init_config home entries).highlight_alpha ≤ 1 ∧
      0 ≤ (wbcffi_init_config home entries).base_alpha ∧
      (wbcffi_init_config home entries).base_alpha ≤ 1 := by
  refine ⟨?_, ?_, ?_, ?_⟩
  · norm_num [wbcffi_init_config, config_lookup, json_node_get_double_or, cMax]
  · norm_num [wbcffi_init_config, config_lookup, json_node_get_double_or, cClamp]
  · norm_num [wbcffi_init_config, config_lookup, json_node_get_uint_or, cClampN,
      intTrunc, cClampI]
  · intro home entries
    simp only [wbcffi_init_config]
    refine ⟨le_cMax _ _, ?_, ?_, ?_, ?_, le_cMax _ _, ?_, ?_, ?_, ?_, ?_, ?_⟩
    · exact (cClamp_bounds _ 1 20 (by norm_num)).1
    · exact (cClamp_bounds _ 1 20 (by norm_num)).2
    · exact (cClampN_bounds _ 5 1000 (by norm_num)).1
    · exact (cClampN_bounds _ 5 1000 (by norm_num)).2
    · exact (cClamp_bounds _ 0.1 6 (by norm_num)).1
    · exact (cClamp_bounds _ 0.1 6 (by norm_num)).2
    · cases h : config_lookup entries "highlight_alpha" with
      | none => norm_num
      | some node => exact (cClamp_bounds _ 0 1 (by norm_num)).1
    · cases h : config_lookup entries "highlight_alpha" with
      | none => norm_num
      | some node => exact (cClamp_bounds _ 0 1 (by norm_num)).2
    · cases h : config_lookup entries "base_alpha" with
      | none => norm_num
      | some node => exact (cClamp_bounds _ 0 1 (by norm_num)).1
    · cases h : config_lookup entries "base_alpha" with
      | none => norm_num
      | some node => exact (cClamp_bounds _ 0 1 (by norm_num)).2

/-- C10: a configured cache_path whose first character is a tilde is
stored as the current user's home directory joined with everything after
that first character — "~alice/x" becomes home/alice/x, "~/x" becomes
home/x — while a path not starting with a tilde is stored unchanged. -/
theorem expand_user_path_spec (home path p : String)
    (hfirst : path.data.head? = some '~')
    (hp : p.data.head? ≠ some '~') :
    expand_user_path home path = g_build_filename home (String.mk path.data.tail) ∧
    expand_user_path "/home/u" "~alice/x" = "/home/u/alice/x" ∧
    expand_user_path "/home/u" "~/x" = "/home/u/x" ∧
    expand_user_path home p = p := by
  refine ⟨?_, by decide, by decide, ?_⟩
  · cases hd : path.data with
    | nil => rw [hd] at hfirst; simp at hfirst
    | cons c rest =>
      rw [hd] at hfirst
      simp only [List.head?] at hfirst
      unfold expand_user_path
      rw [hd]
      simp only [List.tail_cons]
      rw [if_pos (Option.some.inj hfirst)]
  · cases hd : p.data with
    | nil => unfold expand_user_path; rw [hd]
    | cons c rest =>
      rw [hd] at hp
      simp only [List.head?] at hp
      have hc : ¬(c = '~') := fun h1 => hp (by rw [h1])
      unfold expand_user_path
      rw [hd]
      show (if c = '~' then g_build_filename home (String.mk rest) else p) = p
      rw [if_neg hc]

/-- C10 witness: concrete instantiation at home "/h", a tilde path and a
plain path. -/
theorem expand_user_path_spec_witness :
    expand_user_path "/h" "~x" = g_build_filename "/h" (String.mk ("~x" : String).data.tail) ∧
    expand_user_path "/home/u" "~alice/x" = "/home/u/alice/x" ∧
    expand_user_path "/home/u" "~/x" = "/home/u/x" ∧
    expand_user_path "/h" "x" = "x" :=
  expand_user_path_spec "/h" "~x" "x" (by decide) (by decide)

theorem mem_addStyleClass (ctx : List String) (cl t : String) :
    t ∈ addStyleClass ctx cl ↔ t ∈ ctx ∨ t = cl := by
  unfold addStyleClass
  split_ifs with h
  · constructor
    · exact Or.inl
    · rintro (h1 | rfl)
      · exact h1
      · exact h
  · simp [List.mem_append]

theorem mem_freeStyleClasses (stored ctx : List String) (h : ctx.Nodup) (t : String) :
    t ∈ freeStyleClasses ctx stored ↔ t ∈ ctx ∧ t ∉ stored := by
  induction stored generalizing ctx with
  | nil => simp [freeStyleClasses]
  | cons cl rest ih =>
    unfold freeStyleClasses at ih ⊢
    simp only [List.foldl_cons]
    rw [ih (ctx.erase cl) (h.erase cl), h.mem_erase_iff]
    simp only [List.mem_cons]
    tauto

/-- The context-class component of the `update_style_classes` loop. -/
def addAll (ctx : List String) (xs : List Json) : List String :=
  xs.foldl (fun c node =>
    match Json.getString node with
    | some cl => addStyleClass c cl
    | none => c) ctx

theorem foldl_addClassStep (xs : List Json) (c st : List String) :
    xs.foldl addClassStep (c, st) = (addAll c xs, st ++ xs.filterMap Json.getString) := by
  induction xs generalizing c st with
  | nil => simp [addAll]
  | cons x rest ih =>
    simp only [List.foldl_cons, List.filterMap_cons, addAll]
    cases hx : Json.getString x with
    | none => simp only [addClassStep, hx]; rw [ih]; simp [addAll]
    | some cl =>
      simp only [addClassStep, hx]
      rw [ih]
      simp [addAll, List.append_assoc]

theorem mem_addAll (xs : List Json) (ctx : List String) (t : String) :
    t ∈ addAll ctx xs ↔ t ∈ ctx ∨ t ∈ xs.filterMap Json.getString := by
  induction xs generalizing ctx with
  | nil => simp [addAll]
  | cons x rest ih =>
    cases hx : Json.getString x with
    | none =>
      have h1 : addAll ctx (x :: rest) = addAll ctx rest := by
        simp [addAll, hx]
      rw [h1, ih ctx]
      simp [List.filterMap_cons, hx]
    | some cl =>
      have h1 : addAll ctx (x :: rest) = addAll (addStyleClass ctx cl) rest := by
        simp [addAll, hx]
      rw [h1, ih (addStyleClass ctx cl), mem_addStyleClass]
      simp only [List.filterMap_cons, hx, List.mem_cons]
      tauto

/-- C4: for every successful reload, the stored tag set is computed from
the class member exactly as the spec describes — an array keeps its string
elements in order (non-strings skipped), a bare string is a one-element
set, any other shape is empty — and the new set wholly replaces the old
one on the widget: a class is applied afterwards iff it is one of the new
tags or was on the context without having been applied by the module. -/
theorem load_cache_class_tags (s : ShimmerState) (kvs : List (String × Json)) (now : ℚ)
    (hctx : s.ctxClasses.Nodup) :
    (load_cache s (some (some (Json.obj kvs))) now).2 = true ∧
    (load_cache s (some (some (Json.obj kvs))) now).1.styleClasses =
      classStrings (List.lookup "class" kvs) ∧
    ∀ t : String,
      t ∈ (load_cache s (some (some (Json.obj kvs))) now).1.ctxClasses ↔
        t ∈ classStrings (List.lookup "class" kvs) ∨
          (t ∈ s.ctxClasses ∧ t ∉ s.styleClasses) := by
  refine ⟨rfl, ?_, ?_⟩
  · simp only [load_cache, update_style_classes]
    cases hc : List.lookup "class" kvs with
    | none => simp [classStrings]
    | some j =>
      cases j <;>
        simp [classStrings, foldl_addClassStep, addClassStep, Json.getString]
  · intro t
    simp only [load_cache, update_style_classes]
    cases hc : List.lookup "class" kvs with
    | none =>
      simp only [classStrings]
      rw [mem_freeStyleClasses _ _ hctx]
      simp
    | some j =>
      cases j <;>
        simp_all [classStrings, foldl_addClassStep, addClassStep, Json.getString,
          mem_addAll, mem_addStyleClass, mem_freeStyleClasses _ _ hctx,
          -List.mem_filterMap] <;>
        tauto

/-- C4 witness: reloading with a bare-string class "busy" over a state that
had tag "old" applied yields tag set ["busy"], and afterwards "busy" is
applied while "old" is not. -/
theorem load_cache_class_tags_witness :
    (load_cache ⟨some "t", none, none, ["old"], ["old", "keep"], 0⟩
        (some (some (Json.obj [("class", Json.str "busy")]))) 0).2 = true ∧
    (load_cache ⟨some "t", none, none, ["old"], ["old", "keep"], 0⟩
        (some (some (Json.obj [("class", Json.str "busy")]))) 0).1.styleClasses =
      classStrings (List.lookup "class" [("class", Json.str "busy")]) ∧
    (("busy" ∈ (load_cache ⟨some "t", none, none, ["old"], ["old", "keep"], 0⟩
        (some (some (Json.obj [("class", Json.str "busy")]))) 0).1.ctxClasses) ↔
      ("busy" ∈ classStrings (List.lookup "class" [("class", Json.str "busy")]) ∨
        ("busy" ∈ (["old", "keep"] : List String) ∧
          "busy" ∉ (["old"] : List String)))) := by
  have h := load_cache_class_tags ⟨some "t", none, none, ["old"], ["old", "keep"], 0⟩
    [("class", Json.str "busy")] 0 (by decide)
  exact ⟨h.1, h.2.1, h.2.2 "busy"⟩

/-- C2 counterexample: the claim says the renderer never sees an absent or
empty text value; but a successful load of a cache file whose text member
is the empty JSON string stores the empty string as the displayed text, so
the next draw sees a present but empty text. -/
theorem load_cache_empty_text_cex :
    (load_cache ⟨none, none, none, [], [], 0⟩
        (some (some (Json.obj [("text", Json.str "")]))) 0).2 = true ∧
    (load_cache ⟨none, none, none, [], [], 0⟩
        (some (some (Json.obj [("text", Json.str "")]))) 0).1.textPlain = some "" := by
  exact ⟨rfl, rfl⟩

/-- C2 (amended): whenever a successful load finds no usable text member
(absent, or not a string), the non-empty placeholder is substituted, and
every successful load stores a present text; the renderer can still see an
empty text when the cache explicitly supplies an empty string (and an
absent one before the first successful load, which it guards by drawing
nothing). -/
theorem load_cache_text_fallback (s : ShimmerState) (kvs : List (String × Json)) (now : ℚ)
    (h : (List.lookup "text" kvs).bind Json.getString = none) :
    (load_cache s (some (some (Json.obj kvs))) now).1.textPlain = some defaultText ∧
    defaultText ≠ "" ∧
    ∀ (kvs2 : List (String × Json)) (now2 : ℚ),
      ((load_cache s (some (some (Json.obj kvs2))) now2).1.textPlain).isSome = true := by
  refine ⟨?_, by decide, fun kvs2 now2 => rfl⟩
  simp [load_cache, h]

/-- C2 witness: a load of the empty object substitutes the placeholder. -/
theorem load_cache_text_fallback_witness :
    (load_cache ⟨none, none, none, [], [], 0⟩ (some (some (Json.obj []))) 0).1.textPlain =
      some defaultText ∧
    defaultText ≠ "" ∧
    ((load_cache ⟨none, none, none, [], [], 0⟩
        (some (some (Json.obj [("tooltip", Json.str "x")]))) 3).1.textPlain).isSome = true := by
  have h := load_cache_text_fallback ⟨none, none, none, [], [], 0⟩ [] 0 rfl
  exact ⟨h.1, h.2.1, h.2.2 [("tooltip", Json.str "x")] 3⟩

/-- C6: whenever the cycle position `elapsedMs mod (periodMs + pauseMs)`
has reached periodMs, or the highlight alpha is not positive, `on_draw`
performs no highlight pass — no gradient stops are generated and no
gradient is painted — while the base text pass still occurs (text present
and a positive layout width assumed). -/
theorem on_draw_pause_skip (gexp : ℚ → ℚ) (c : Config) (t : String)
    (lw lh ah : ℤ) (e : ℚ) (hlw : 0 < lw)
    (h : c.period_ms ≤ cFmod e (c.period_ms + c.pause_ms) ∨ c.highlight_alpha ≤ 0) :
    on_draw gexp c (some t) lw lh ah e = ⟨true, true, none⟩ := by
  simp only [on_draw]
  rw [if_neg (not_le.mpr hlw), if_pos h]

/-- A configuration with highlight_alpha 0 for the C6 witness. -/
def cfgNoHighlight : Config :=
  ⟨"/tmp/latest.json", 1600, 4, 1, 33, 500, 0, 1⟩

/-- C6 witness: with a zero highlight alpha a frame is painted without any
highlight pass. -/
theorem on_draw_pause_skip_witness :
    on_draw (fun q => q) cfgNoHighlight (some "hi") 5 1 1 0 = ⟨true, true, none⟩ :=
  on_draw_pause_skip (fun q => q) cfgNoHighlight "hi" 5 1 1 0 (by decide)
    (Or.inr (le_of_eq rfl))

theorem cFmod_add_right (e T : ℚ) (he : 0 ≤ e) (hT : 0 < T) :
    cFmod (e + T) T = cFmod e T := by
  have hT0 : T ≠ 0 := ne_of_gt hT
  have h1 : (e + T) / T = e / T + 1 := by field_simp
  have h2 : (0:ℚ) ≤ e / T := div_nonneg he hT.le
  unfold cFmod intTrunc
  rw [h1]
  rw [if_neg (not_lt.mpr (by linarith : (0:ℚ) ≤ e / T + 1)), if_neg (not_lt.mpr h2)]
  rw [Int.floor_add_one]
  push_cast
  ring

/-- C3: the rendering logic never consumes the cycles configuration value
— two configs differing only in cycles render identically (same skip
decision, band geometry and gradient stops) — and the sweep repeats with
period periodMs + pauseMs: advancing the elapsed time by exactly one
cycle reproduces the same frame, so exactly one traversal occurs per
cycle. -/
theorem on_draw_cycles_free (gexp : ℚ → ℚ) (c : Config) (x : ℚ) (tp : Option String)
    (lw lh ah : ℤ) (e : ℚ) (he : 0 ≤ e) (hT : 0 < c.period_ms + c.pause_ms) :
    on_draw gexp { c with cycles := x } tp lw lh ah e = on_draw gexp c tp lw lh ah e ∧
    on_draw gexp c tp lw lh ah (e + (c.period_ms + c.pause_ms)) =
      on_draw gexp c tp lw lh ah e := by
  constructor
  · rfl
  · cases tp with
    | none => rfl
    | some t =>
      simp only [on_draw, cFmod_add_right e (c.period_ms + c.pause_ms) he hT]

/-- The default configuration for the C3 witness. -/
def cfgDefault : Config := ⟨"/tmp/latest.json", 1600, 4, 1, 33, 500, 0.35, 1⟩

/-- C3 witness: concrete frames with cycles 3 versus 1 agree, and one full
cycle later the frame repeats. -/
theorem on_draw_cycles_free_witness :
    on_draw (fun q => q) { cfgDefault with cycles := 3 } (some "hi") 5 1 1 0 =
      on_draw (fun q => q) cfgDefault (some "hi") 5 1 1 0 ∧
    on_draw (fun q => q) cfgDefault (some "hi") 5 1 1
        (0 + (cfgDefault.period_ms + cfgDefault.pause_ms)) =
      on_draw (fun q => q) cfgDefault (some "hi") 5 1 1 0 :=
  on_draw_cycles_free (fun q => q) cfgDefault 3 (some "hi") 5 1 1 0 (le_refl 0)
    (by norm_num [cfgDefault])

theorem envelopeQ_eq_min : envelopeQ = fun q => min (q * 2) ((1 - q) * 2) := by
  funext q
  unfold envelopeQ
  rcases lt_or_le q 0.5 with h | h
  · rw [if_pos h]
    exact (min_eq_left (by linarith)).symm
  · rw [if_neg (not_lt.mpr h)]
    exact (min_eq_right (by linarith)).symm

theorem envelopeQ_continuous : Continuous envelopeQ := by
  rw [envelopeQ_eq_min]
  exact (continuous_id.mul continuous_const).min
    ((continuous_const.sub continuous_id).mul continuous_const)

/-- C7: the renderer's envelope function is continuous on [0,1), takes the
value 0 at phase 0 and 1 at phase 0.5, tends to 0 as phase approaches 1
from below, and is symmetric about 0.5. -/
theorem envelopeQ_props (d : ℚ) (h0 : 0 ≤ d) (h1 : d ≤ 0.5) :
    ContinuousOn envelopeQ (Set.Ico (0 : ℚ) 1) ∧
    envelopeQ 0 = 0 ∧
    envelopeQ 0.5 = 1 ∧
    Filter.Tendsto envelopeQ (nhdsWithin 1 (Set.Iio (1 : ℚ))) (nhds 0) ∧
    envelopeQ (0.5 - d) = envelopeQ (0.5 + d) := by
  refine ⟨envelopeQ_continuous.continuousOn, by norm_num [envelopeQ],
    by norm_num [envelopeQ], ?_, ?_⟩
  · have h2 := (envelopeQ_continuous.tendsto 1).mono_left
      (nhdsWithin_le_nhds : nhdsWithin (1:ℚ) (Set.Iio 1) ≤ nhds 1)
    have h3 : envelopeQ 1 = 0 := by norm_num [envelopeQ]
    rwa [h3] at h2
  · rcases eq_or_lt_of_le h0 with heq | hd
    · rw [← heq]
      norm_num
    · unfold envelopeQ
      rw [if_pos (by linarith), if_neg (not_lt.mpr (by linarith))]
      ring_nf

/-- C7 witness: the symmetry and the endpoint values at d = 0.25. -/
theorem envelopeQ_props_witness :
    envelopeQ 0 = 0 ∧ envelopeQ 0.5 = 1 ∧
    envelopeQ (0.5 - 0.25) = envelopeQ (0.5 + 0.25) := by
  have h := envelopeQ_props 0.25 (by norm_num) (by norm_num)
  exact ⟨h.2.1, h.2.2.1, h.2.2.2.2⟩

/-- C8: for fixed positive layout width and band width, the band center is
the affine function -bandWidth + phase * (layoutWidth + 2 * bandWidth),
strictly increasing on [0,1), equal to -bandWidth at phase 0 and tending
to layoutWidth + bandWidth as phase approaches 1 from below. -/
theorem center_px_affine (lw bw : ℚ) (hlw : 0 < lw) (hbw : 0 < bw) :
    StrictMonoOn (center_px lw bw) (Set.Ico (0 : ℚ) 1) ∧
    (∀ p : ℚ, center_px lw bw p = -bw + p * (lw + 2 * bw)) ∧
    center_px lw bw 0 = -bw ∧
    Filter.Tendsto (center_px lw bw) (nhdsWithin 1 (Set.Iio (1 : ℚ))) (nhds (lw + bw)) := by
  have hslope : (0:ℚ) < lw + bw * 2 := by linarith
  have hform : ∀ p : ℚ, center_px lw bw p = -bw + p * (lw + bw * 2) := fun p => rfl
  refine ⟨?_, ?_, ?_, ?_⟩
  · intro a ha b hb hab
    rw [hform a, hform b]
    have hm := mul_lt_mul_of_pos_right hab hslope
    linarith
  · intro p
    rw [hform p]
    ring
  · rw [hform 0]
    ring
  · have hc : Continuous (center_px lw bw) := by
      have he : (center_px lw bw) = fun p : ℚ => -bw + p * (lw + bw * 2) := funext hform
      rw [he]
      exact continuous_const.add (continuous_id.mul continuous_const)
    have h2 := (hc.tendsto 1).mono_left
      (nhdsWithin_le_nhds : nhdsWithin (1:ℚ) (Set.Iio 1) ≤ nhds 1)
    have h3 : center_px lw bw 1 = lw + bw := by rw [hform 1]; ring
    rwa [h3] at h2

/-- C8 witness: concrete instantiation at layout width 10 and band width 2. -/
theorem center_px_affine_witness :
    StrictMonoOn (center_px 10 2) (Set.Ico (0 : ℚ) 1) ∧
    center_px 10 2 0 = -2 ∧
    Filter.Tendsto (center_px 10 2) (nhdsWithin 1 (Set.Iio (1 : ℚ))) (nhds (10 + 2)) := by
  have h := center_px_affine 10 2 (by norm_num) (by norm_num)
  exact ⟨h.1, h.2.2.1, h.2.2.2⟩
